import Mathlib

/-!
Shallow embedding of the go-gitconfig library (gitconfig.go) and proofs of
its specified properties.

The external `git config` process is modelled as an oracle function from the
full argument list to a process outcome; the library code built on top of it
(`Config.get`, the typed accessors, `Config.Load`, `LoadError`,
`IsInvalidKeyError`) is translated function by function from the Go source.
Go runtime panics (out-of-range slice indexing) and Go's distinction between
a nil interface and a non-nil interface holding a nil concrete value are
modelled explicitly.
-/

set_option autoImplicit false

namespace GitConfig

/-- Outcome of running the external `git config` process once:
`success out` models a zero exit status with raw stdout bytes `out`
(as a character list); `exitError status stderr` models Go
receiving an `*exec.ExitError` with the given process exit status and
collected stderr; `startError` models any other failure of `cmd.Output()`
(e.g. the executable could not be spawned). -/
inductive ExecResult where
  | success (out : List Char)
  | exitError (status : Int) (stderr : String)
  | startError
deriving DecidableEq

/-- The external process adapter: a function from the complete argument
list passed to `git` to the outcome of that invocation. -/
def Exec := List String → ExecResult

/-- Go `error` values produced by this library's value-reader layer:
`runError msg status` is `RunError{Msg: msg, Err: e}` where `e.Sys()`
reports exit status `status`; `startErr` is the unwrapped non-ExitError
returned by `cmd.Output()`; `numError input range` is the
`*strconv.NumError` from `strconv.ParseInt` (with `range = true` for
`ErrRange`, `false` for `ErrSyntax`); `errorfMsg msg` is a generic
`fmt.Errorf` error. -/
inductive GoError where
  | runError (msg : String) (status : Int)
  | startErr
  | numError (input : String) (range : Bool)
  | errorfMsg (msg : String)
deriving DecidableEq

/-- Go `strings.Split(s, sep)` for a one-character separator: splits on
every occurrence of `sep`; always returns at least one (possibly empty)
segment. -/
def splitOnChar (sep : Char) : List Char → List (List Char)
  | [] => [[]]
  | c :: rest =>
    if c = sep then [] :: splitOnChar sep rest
    else
      match splitOnChar sep rest with
      | [] => [[c]]
      | seg :: segs => (c :: seg) :: segs

/-- Go `strings.Split(s, "\x00")`. -/
def splitOnNul : List Char → List (List Char) := splitOnChar '\x00'

/-- Go `strings.TrimRight(s, "\n")`: removes all trailing newline
characters. -/
def trimRightNl (s : String) : String :=
  ((s.data.reverse.dropWhile (fun c => c = '\n')).reverse).asString

/-- The `Config` struct: wraps one `Source` (a list of extra argument
tokens selecting where git reads config from). -/
structure Config where
  source : List String
deriving DecidableEq

/-- `SourceGlobal`. -/
def SourceGlobal : List String := ["--global"]

/-- `SourceLocal`. -/
def SourceLocal : List String := ["--local"]

/-- `SourceFile`. -/
def SourceFile (file : String) : List String := ["--file", file]

/-- `SourceBlob`. -/
def SourceBlob (blob : String) : List String := ["--blob", blob]

/-- `Default` reads git config from the default source. -/
def Default : Config := ⟨[]⟩

/-- `Global` reads git config from the global source. -/
def Global : Config := ⟨SourceGlobal⟩

/-- `Local` reads git config from the local source. -/
def Local : Config := ⟨SourceLocal⟩

/-- `File` reads git config from the specified file. -/
def File (file : String) : Config := ⟨SourceFile file⟩

/-- `Blob` reads git config from the specified blob. -/
def Blob (blob : String) : Config := ⟨SourceBlob blob⟩

/-- The argument list `Config.get` builds:
`git config --get-all --null <source...> <extraArgs...> <key>`. -/
def queryArgs (c : Config) (extraArgs : List String) (key : String) : List String :=
  ["config", "--get-all", "--null"] ++ c.source ++ extraArgs ++ [key]

/-- `Config.get`: runs the external query and on success splits the output
on NUL and drops the final segment produced by the terminal separator
(`ss[:len(ss)-1]`); on an `*exec.ExitError` wraps it in a `RunError`
carrying the newline-trimmed stderr; any other run error is returned
unchanged. Returns the Go pair `([]string, error)`. -/
def Config.get (exec : Exec) (c : Config) (key : String) (extraArgs : List String) :
    List String × Option GoError :=
  match exec (queryArgs c extraArgs key) with
  | .success out => (((splitOnNul out).dropLast).map List.asString, none)
  | .exitError status stderr => ([], some (.runError (trimRightNl stderr) status))
  | .startError => ([], some .startErr)

/-- Result of a Go function returning `(α, error)` that may also panic:
`ret v e` is a normal return of value `v` and error `e` (`none` = nil
error); `panicked` is a runtime panic (here: slice index out of range). -/
inductive GoResult (α : Type) where
  | ret (val : α) (err : Option GoError)
  | panicked
deriving DecidableEq

/-- `Config.GetString`: `values[len(values)-1]` of the raw result, or the
propagated query failure with the zero string; panics when a successful
query yields an empty list. -/
def Config.GetString (exec : Exec) (c : Config) (key : String) : GoResult String :=
  match Config.get exec c key [] with
  | (_, some e) => .ret "" (some e)
  | (values, none) =>
    match values.getLast? with
    | some v => .ret v none
    | none => .panicked

/-- `Config.GetStrings`: returns `c.get(key)` unchanged. -/
def Config.GetStrings (exec : Exec) (c : Config) (key : String) :
    List String × Option GoError :=
  Config.get exec c key []

/-- `Config.GetPath`: like `GetString` but passing `--path`. -/
def Config.GetPath (exec : Exec) (c : Config) (key : String) : GoResult String :=
  match Config.get exec c key ["--path"] with
  | (_, some e) => .ret "" (some e)
  | (values, none) =>
    match values.getLast? with
    | some v => .ret v none
    | none => .panicked

/-- `Config.GetPaths`: returns `c.get(key, "--path")` unchanged. -/
def Config.GetPaths (exec : Exec) (c : Config) (key : String) :
    List String × Option GoError :=
  Config.get exec c key ["--path"]

/-- `Config.GetBool`: `values[0] == "true"` of the raw result obtained with
`--bool`, or the propagated failure with `false`; panics when a successful
query yields an empty list. -/
def Config.GetBool (exec : Exec) (c : Config) (key : String) : GoResult Bool :=
  match Config.get exec c key ["--bool"] with
  | (_, some e) => .ret false (some e)
  | (values, none) =>
    match values.head? with
    | some v => .ret (v == "true") none
    | none => .panicked

/-- Go `strconv.ParseInt(s, 10, 64)`: returns the parsed value and a nil
error, or `(0, ErrSyntax)` on malformed input, or the clamped extreme
value together with `ErrRange` when the number does not fit in a signed
64-bit integer. -/
def parseInt64 (s : String) : Int × Option GoError :=
  match s.data with
  | [] => (0, some (.numError s false))
  | first :: _ =>
    let digits : List Char :=
      if first = '+' ∨ first = '-' then s.data.tail else s.data
    if digits = [] ∨ ¬ digits.all Char.isDigit then
      (0, some (.numError s false))
    else
      let n : Nat := digits.foldl (fun acc c => acc * 10 + (c.toNat - 48)) 0
      let v : Int := if first = '-' then -(n : Int) else (n : Int)
      if v < -(2 ^ 63) then (-(2 ^ 63), some (.numError s true))
      else if 2 ^ 63 - 1 < v then (2 ^ 63 - 1, some (.numError s true))
      else (v, none)

/-- `Config.GetInt64`: `strconv.ParseInt(values[0], 10, 64)` of the raw
result obtained with `--int` (the pair is returned unchanged), or the
propagated query failure with `0`; panics when a successful query yields
an empty list. -/
def Config.GetInt64 (exec : Exec) (c : Config) (key : String) : GoResult Int :=
  match Config.get exec c key ["--int"] with
  | (_, some e) => .ret 0 (some e)
  | (values, none) =>
    match values.head? with
    | some v =>
      match parseInt64 v with
      | (i, e) => .ret i e
    | none => .panicked

/-- `IsInvalidKeyError`: true exactly for a `RunError` whose process exit
status is 1. -/
def IsInvalidKeyError : GoError → Bool
  | .runError _ status => status == 1
  | _ => false

/-- Value held by one struct field, tagged with its reflect kind: the five
supported kinds (`reflect.String`, the signed `reflect.Int*` family,
`reflect.Bool`, a slice of strings, a fixed-size array of strings whose
length is the list's length); `otherSlice ty` and `otherArray ty n` for a
slice or array whose element type `ty` is not string (these still enter
the `reflect.Slice` / `reflect.Array` cases of the dispatch, where
`fv.Set` / `SetString` panics on a successfully queried key); and
`unsupported ty` for the kinds that fall to the dispatch's `default:`
case (uint families, float, struct, map, pointer, ...), carrying the
type name used in the error message. -/
inductive FieldValue where
  | str (s : String)
  | int (i : Int)
  | bool (b : Bool)
  | strSlice (l : List String)
  | strArray (l : List String)
  | otherSlice (elemType : String)
  | otherArray (elemType : String) (len : Nat)
  | unsupported (typeName : String)
deriving DecidableEq

/-- One struct field as seen through reflection: its name, its raw
`gitconfig` tag (`""` when the tag is absent), whether it is settable,
and its current value. -/
structure Field where
  name : String
  tag : String
  canSet : Bool
  value : FieldValue
deriving DecidableEq

/-- Go `for i := 0; i < fv.Len() && i < len(ss); i++ fv.Index(i).SetString(ss[i])`:
overwrite the array slots positionally by the result elements, up to the
shorter of the two; remaining slots keep their previous value, extra
result elements are ignored. -/
def arrayAssign : List String → List String → List String
  | [], _ => []
  | _ :: olds, s :: ss => s :: arrayAssign olds ss
  | olds, [] => olds

/-- The lookup key of a tagged field: `tags[0]` where
`tags := strings.Split(tag, ",")` (the part of the tag before the first
comma; the split of a string is never empty, so `headD` is its head). -/
def fieldKey (f : Field) : String :=
  ((splitOnChar ',' f.tag.data).map List.asString).headD ""

/-- The body of the `Load` loop for one field: skip non-settable fields
and fields without a `gitconfig` tag; otherwise take the key from the tag
(the part before the first comma) and dispatch on the field's kind,
either updating the field from the accessor's result or producing the
per-field error; a kind falling to the `default:` case produces the
`fmt.Errorf` error.  A slice or array field with a non-string element
type still enters the `reflect.Slice` / `reflect.Array` case: a query
failure is recorded per-field as usual, but on a successful query
`fv.Set(ssr)` (slice) or `fv.Index(i).SetString` (array) panics — for
arrays only when both the array and the result are non-empty, since
otherwise the assignment loop body never runs.  `none` models a runtime
panic propagating out of the loop body. -/
def loadField (exec : Exec) (c : Config) (f : Field) : Option (Field × Option GoError) :=
  if f.canSet = false then some (f, none)
  else if f.tag = "" then some (f, none)
  else
    match f.value with
    | .str _ =>
      match Config.GetString exec c (fieldKey f) with
      | .ret s none => some ({ f with value := .str s }, none)
      | .ret _ (some e) => some (f, some e)
      | .panicked => none
    | .int _ =>
      match Config.GetInt64 exec c (fieldKey f) with
      | .ret i none => some ({ f with value := .int i }, none)
      | .ret _ (some e) => some (f, some e)
      | .panicked => none
    | .strSlice _ =>
      match Config.GetStrings exec c (fieldKey f) with
      | (_, some e) => some (f, some e)
      | (ss, none) => some ({ f with value := .strSlice ss }, none)
    | .strArray a =>
      match Config.GetStrings exec c (fieldKey f) with
      | (_, some e) => some (f, some e)
      | (ss, none) => some ({ f with value := .strArray (arrayAssign a ss) }, none)
    | .otherSlice _ =>
      match Config.GetStrings exec c (fieldKey f) with
      | (_, some e) => some (f, some e)
      | (_, none) => none
    | .otherArray _ n =>
      match Config.GetStrings exec c (fieldKey f) with
      | (_, some e) => some (f, some e)
      | (ss, none) => if n = 0 ∨ ss = [] then some (f, none) else none
    | .bool _ =>
      match Config.GetBool exec c (fieldKey f) with
      | .ret b none => some ({ f with value := .bool b }, none)
      | .ret _ (some e) => some (f, some e)
      | .panicked => none
    | .unsupported typeName =>
      some (f, some (.errorfMsg
        ("cannot populate field \"" ++ f.name ++ "\" of type " ++ typeName)))

/-- Fields whose per-field processing can never panic, whatever the
adapter answers: every skipped field (non-settable or untagged), and
every processed field except a slice or array of non-string element
type — the two kinds whose reflect assignment panics on a successfully
queried key. -/
def panicFree (f : Field) : Bool :=
  if f.canSet = false then true
  else if f.tag = "" then true
  else
    match f.value with
    | .otherSlice _ => false
    | .otherArray _ n => n == 0
    | _ => true

/-- A Go value of the map type `LoadError` (`map[string]error`): `none`
is the nil map, `some l` a non-nil map with entries `l` (field names are
unique in a Go struct, so insertion order is kept as a list). -/
abbrev LoadError := Option (List (String × GoError))

/-- Go map assignment `m[k] = v` on the underlying entry list: replace
the entry for `k` when present, append otherwise. -/
def mapInsert (m : List (String × GoError)) (k : String) (v : GoError) :
    List (String × GoError) :=
  if m.any (fun p => p.1 == k) then
    m.map (fun p => if p.1 == k then (k, v) else p)
  else m ++ [(k, v)]

/-- Number of entries of a possibly-nil Go map (`len` of a nil map is 0). -/
def goMapLen : LoadError → Nat
  | none => 0
  | some l => l.length

/-- `LoadError.Any`: returns the nil map if there was actually no error,
and the map itself otherwise. -/
def LoadError.Any (m : LoadError) : LoadError :=
  if goMapLen m = 0 then none else m

/-- A Go `error` interface value as returned by `Load`: either the nil
interface, or a non-nil interface holding a `fmt.Errorf` error, or a
non-nil interface holding a concrete `LoadError` value (whose map may
itself be nil — such an interface value is still not the nil interface). -/
inductive GoErrorInterface where
  | nilInterface
  | errorfMsg (msg : String)
  | loadErr (m : LoadError)
deriving DecidableEq

/-- The argument passed to `Load`: not a pointer at all, a pointer to a
non-struct value, or a pointer to a struct with the given fields.  The
`desc` strings stand for the `%v` rendering of the argument used in the
precondition error messages. -/
inductive LoadArg where
  | nonPointer (desc : String)
  | ptrToNonStruct (desc : String)
  | ptrToStruct (fields : List Field)
deriving DecidableEq

/-- The `Load` loop over the remaining fields, threading the `errs` map
being built; `none` models a panic propagating out of an accessor. -/
def loadFields (exec : Exec) (c : Config) :
    List Field → List (String × GoError) → Option (List Field × List (String × GoError))
  | [], errs => some ([], errs)
  | f :: fs, errs =>
    match loadField exec c f with
    | none => none
    | some (f2, none) =>
      match loadFields exec c fs errs with
      | none => none
      | some (fs2, errs2) => some (f2 :: fs2, errs2)
    | some (f2, some e) =>
      match loadFields exec c fs (mapInsert errs f.name e) with
      | none => none
      | some (fs2, errs2) => some (f2 :: fs2, errs2)

/-- `Config.Load`: reject a non-pointer, then a pointer to a non-struct,
with immediate `fmt.Errorf` failures; otherwise run the field loop
starting from the non-nil empty map `LoadError{}` and return
`errs.Any()` — note that the returned `error` interface value is built
from a concrete `LoadError` and hence is never the nil interface.  The
second component is the final state of the argument. -/
def Config.Load (exec : Exec) (c : Config) (arg : LoadArg) :
    Option (GoErrorInterface × LoadArg) :=
  match arg with
  | .nonPointer desc =>
    some (.errorfMsg ("not a pointer: " ++ desc), .nonPointer desc)
  | .ptrToNonStruct desc =>
    some (.errorfMsg ("not a pointer to a struct: " ++ desc), .ptrToNonStruct desc)
  | .ptrToStruct fields =>
    match loadFields exec c fields [] with
    | none => none
    | some (fields2, errs) =>
      some (.loadErr (LoadError.Any (some errs)), .ptrToStruct fields2)

/-- Serialization of a value list in the `--null` output format of
`git config --get-all`: each value followed by one NUL terminator. -/
def encodeValues (vs : List String) : List Char :=
  vs.foldr (fun v acc => v.data ++ '\x00' :: acc) []

/-- The adapter contract of `git config --get-all --null`: whenever the
process succeeds, its output is the NUL-terminated encoding of at least
one value, none of which contains a NUL (a key with zero entries exits
with status 1 instead of succeeding). -/
def ConformantResult : ExecResult → Prop
  | .success out =>
    ∃ vs : List String, vs ≠ [] ∧ (∀ v ∈ vs, '\x00' ∉ v.data) ∧ out = encodeValues vs
  | _ => True

/-- An adapter every invocation of which satisfies the output contract. -/
def Conformant (exec : Exec) : Prop := ∀ args, ConformantResult (exec args)

/-- The field produced by processing one field in isolation (the field
itself when the accessor panics — used only under `Conformant`, where
panics do not occur). -/
def outF (exec : Exec) (c : Config) (f : Field) : Field :=
  match loadField exec c f with
  | some (f2, _) => f2
  | none => f

/-- The error-map entry produced by processing one field in isolation. -/
def errF (exec : Exec) (c : Config) (f : Field) : Option (String × GoError) :=
  match loadField exec c f with
  | some (_, some e) => some (f.name, e)
  | _ => none

theorem asString_data (s : String) : s.data.asString = s := rfl

theorem splitOnChar_ne_nil (sep : Char) (l : List Char) : splitOnChar sep l ≠ [] := by
  cases l with
  | nil => simp [splitOnChar]
  | cons c rest =>
    simp only [splitOnChar]
    split
    · simp
    · cases h : splitOnChar sep rest <;> simp

theorem splitOnChar_append (sep : Char) (v rest : List Char) (hv : sep ∉ v) :
    splitOnChar sep (v ++ sep :: rest) = v :: splitOnChar sep rest := by
  induction v with
  | nil => simp [splitOnChar]
  | cons c cs ih =>
    have hc : ¬ c = sep := fun h => hv (by simp [h])
    have hcs : sep ∉ cs := fun h => hv (List.mem_cons_of_mem _ h)
    simp only [List.cons_append, splitOnChar, List.append_eq]
    rw [if_neg hc, ih hcs]

theorem splitOnNul_encodeValues :
    ∀ (vs : List String), (∀ v ∈ vs, '\x00' ∉ v.data) →
      splitOnNul (encodeValues vs) = vs.map String.data ++ [[]]
  | [], _ => rfl
  | v :: vs, h => by
    have hv : '\x00' ∉ v.data := h v (by simp)
    have hvs : ∀ w ∈ vs, '\x00' ∉ w.data := fun w hw => h w (by simp [hw])
    have ih := splitOnNul_encodeValues vs hvs
    show splitOnChar '\x00' (v.data ++ '\x00' :: encodeValues vs) = _
    rw [splitOnChar_append _ _ _ hv]
    rw [show splitOnChar '\x00' (encodeValues vs) = splitOnNul (encodeValues vs) from rfl, ih]
    simp

theorem get_success (exec : Exec) (c : Config) (key : String) (extra : List String)
    (vs : List String) (hfree : ∀ v ∈ vs, '\x00' ∉ v.data)
    (hexec : exec (queryArgs c extra key) = .success (encodeValues vs)) :
    Config.get exec c key extra = (vs, none) := by
  have hmap : List.map List.asString (List.map String.data vs) = vs := by
    rw [List.map_map]
    rw [show List.asString ∘ String.data = id from funext fun s => asString_data s]
    exact List.map_id vs
  simp only [Config.get, hexec, splitOnNul_encodeValues vs hfree, List.dropLast_concat, hmap]

theorem get_exitError (exec : Exec) (c : Config) (key : String) (extra : List String)
    (status : Int) (stderr : String)
    (hexec : exec (queryArgs c extra key) = .exitError status stderr) :
    Config.get exec c key extra = ([], some (.runError (trimRightNl stderr) status)) := by
  simp [Config.get, hexec]

theorem get_startError (exec : Exec) (c : Config) (key : String) (extra : List String)
    (hexec : exec (queryArgs c extra key) = .startError) :
    Config.get exec c key extra = ([], some .startErr) := by
  simp [Config.get, hexec]

theorem get_cases (exec : Exec) (hconf : Conformant exec) (c : Config) (key : String)
    (extra : List String) :
    (∃ vs, vs ≠ [] ∧ Config.get exec c key extra = (vs, none)) ∨
    (∃ e, Config.get exec c key extra = ([], some e)) := by
  have h := hconf (queryArgs c extra key)
  cases hx : exec (queryArgs c extra key) with
  | success out =>
    rw [hx] at h
    simp only [ConformantResult] at h
    obtain ⟨vs, hne, hfree, hout⟩ := h
    exact Or.inl ⟨vs, hne, get_success exec c key extra vs hfree (by rw [hx, hout])⟩
  | exitError status stderr =>
    exact Or.inr ⟨_, get_exitError exec c key extra status stderr hx⟩
  | startError =>
    exact Or.inr ⟨_, get_startError exec c key extra hx⟩

theorem GetStrings_success (exec : Exec) (c : Config) (key : String) (vs : List String)
    (hfree : ∀ v ∈ vs, '\x00' ∉ v.data)
    (hexec : exec (queryArgs c [] key) = .success (encodeValues vs)) :
    Config.GetStrings exec c key = (vs, none) :=
  get_success exec c key [] vs hfree hexec

theorem GetString_success (exec : Exec) (c : Config) (key : String) (vs : List String)
    (hne : vs ≠ []) (hfree : ∀ v ∈ vs, '\x00' ∉ v.data)
    (hexec : exec (queryArgs c [] key) = .success (encodeValues vs)) :
    Config.GetString exec c key = .ret (vs.getLast hne) none := by
  simp [Config.GetString, get_success exec c key [] vs hfree hexec,
    List.getLast?_eq_getLast vs hne]

theorem GetBool_success (exec : Exec) (c : Config) (key : String) (vs : List String)
    (hne : vs ≠ []) (hfree : ∀ v ∈ vs, '\x00' ∉ v.data)
    (hexec : exec (queryArgs c ["--bool"] key) = .success (encodeValues vs)) :
    Config.GetBool exec c key = .ret (vs.head hne == "true") none := by
  simp [Config.GetBool, get_success exec c key ["--bool"] vs hfree hexec,
    List.head?_eq_head hne]

theorem GetInt64_success (exec : Exec) (c : Config) (key : String) (vs : List String)
    (hne : vs ≠ []) (hfree : ∀ v ∈ vs, '\x00' ∉ v.data)
    (hexec : exec (queryArgs c ["--int"] key) = .success (encodeValues vs)) :
    Config.GetInt64 exec c key =
      .ret (parseInt64 (vs.head hne)).1 (parseInt64 (vs.head hne)).2 := by
  simp [Config.GetInt64, get_success exec c key ["--int"] vs hfree hexec,
    List.head?_eq_head hne]

theorem GetString_ne_panicked (exec : Exec) (hconf : Conformant exec) (c : Config)
    (key : String) : Config.GetString exec c key ≠ .panicked := by
  rcases get_cases exec hconf c key [] with ⟨vs, hne, hg⟩ | ⟨e, hg⟩
  · simp [Config.GetString, hg, List.getLast?_eq_getLast vs hne]
  · simp [Config.GetString, hg]

theorem GetPath_ne_panicked (exec : Exec) (hconf : Conformant exec) (c : Config)
    (key : String) : Config.GetPath exec c key ≠ .panicked := by
  rcases get_cases exec hconf c key ["--path"] with ⟨vs, hne, hg⟩ | ⟨e, hg⟩
  · simp [Config.GetPath, hg, List.getLast?_eq_getLast vs hne]
  · simp [Config.GetPath, hg]

theorem GetBool_ne_panicked (exec : Exec) (hconf : Conformant exec) (c : Config)
    (key : String) : Config.GetBool exec c key ≠ .panicked := by
  rcases get_cases exec hconf c key ["--bool"] with ⟨vs, hne, hg⟩ | ⟨e, hg⟩
  · simp [Config.GetBool, hg, List.head?_eq_head hne]
  · simp [Config.GetBool, hg]

theorem GetInt64_ne_panicked (exec : Exec) (hconf : Conformant exec) (c : Config)
    (key : String) : Config.GetInt64 exec c key ≠ .panicked := by
  rcases get_cases exec hconf c key ["--int"] with ⟨vs, hne, hg⟩ | ⟨e, hg⟩
  · simp [Config.GetInt64, hg, List.head?_eq_head hne]
  · simp [Config.GetInt64, hg]

theorem get_success_ne_nil (exec : Exec) (hconf : Conformant exec) (c : Config)
    (key : String) (extra : List String)
    (hok : (Config.get exec c key extra).2 = none) :
    (Config.get exec c key extra).1 ≠ [] := by
  rcases get_cases exec hconf c key extra with ⟨vs, hne, hg⟩ | ⟨e, hg⟩
  · rw [hg]; exact hne
  · rw [hg] at hok; simp at hok

theorem get_err_nil (exec : Exec) (c : Config) (key : String) (extra : List String)
    (l : List String) (e : GoError)
    (h : Config.get exec c key extra = (l, some e)) : l = [] := by
  unfold Config.get at h
  cases hx : exec (queryArgs c extra key) <;> rw [hx] at h <;> simp_all

theorem GetString_zero_on_err (exec : Exec) (c : Config) (key : String) (s : String)
    (e : GoError) (h : Config.GetString exec c key = .ret s (some e)) : s = "" := by
  unfold Config.GetString at h
  rcases hg : Config.get exec c key [] with ⟨values, err⟩
  rw [hg] at h
  cases err with
  | none => cases hl : values.getLast? <;> simp [hl] at h
  | some e2 => simp_all

theorem GetPath_zero_on_err (exec : Exec) (c : Config) (key : String) (s : String)
    (e : GoError) (h : Config.GetPath exec c key = .ret s (some e)) : s = "" := by
  unfold Config.GetPath at h
  rcases hg : Config.get exec c key ["--path"] with ⟨values, err⟩
  rw [hg] at h
  cases err with
  | none => cases hl : values.getLast? <;> simp [hl] at h
  | some e2 => simp_all

theorem GetBool_zero_on_err (exec : Exec) (c : Config) (key : String) (b : Bool)
    (e : GoError) (h : Config.GetBool exec c key = .ret b (some e)) : b = false := by
  unfold Config.GetBool at h
  rcases hg : Config.get exec c key ["--bool"] with ⟨values, err⟩
  rw [hg] at h
  cases err with
  | none => cases hl : values.head? <;> simp [hl] at h
  | some e2 => simp_all

theorem parseInt64_err (s : String) (i : Int) (e : GoError)
    (h : parseInt64 s = (i, some e)) :
    i = 0 ∨ ((i = 2 ^ 63 - 1 ∨ i = -(2 ^ 63)) ∧ e = .numError s true) := by
  unfold parseInt64 at h
  cases hd : s.data with
  | nil => rw [hd] at h; simp_all
  | cons first rest =>
    rw [hd] at h
    simp only [] at h
    split_ifs at h <;> simp_all

theorem GetInt64_zero_or_clamped_on_err (exec : Exec) (c : Config) (key : String)
    (i : Int) (e : GoError) (h : Config.GetInt64 exec c key = .ret i (some e)) :
    i = 0 ∨ ((i = 2 ^ 63 - 1 ∨ i = -(2 ^ 63)) ∧ ∃ s, e = .numError s true) := by
  unfold Config.GetInt64 at h
  rcases hg : Config.get exec c key ["--int"] with ⟨values, err⟩
  rw [hg] at h
  cases err with
  | none =>
    cases hl : values.head? with
    | none => simp [hl] at h
    | some v =>
      rcases hp : parseInt64 v with ⟨i2, e2⟩
      simp only [hl, hp, GoResult.ret.injEq] at h
      obtain ⟨rfl, rfl⟩ := h
      rcases parseInt64_err v i2 e hp with h0 | ⟨hc, he3⟩
      · exact Or.inl h0
      · exact Or.inr ⟨hc, v, he3⟩
  | some e2 => simp_all

theorem loadField_not_settable (exec : Exec) (c : Config) (f : Field)
    (h : f.canSet = false) : loadField exec c f = some (f, none) := by
  simp [loadField, h]

theorem loadField_untagged (exec : Exec) (c : Config) (f : Field)
    (h : f.tag = "") : loadField exec c f = some (f, none) := by
  cases hc : f.canSet <;> simp [loadField, hc, h]

theorem loadField_err_frame (exec : Exec) (c : Config) (f f2 : Field) (e : GoError)
    (h : loadField exec c f = some (f2, some e)) : f2 = f := by
  unfold loadField at h
  repeat' split at h
  all_goals simp_all

theorem loadField_ne_none (exec : Exec) (hconf : Conformant exec) (c : Config)
    (f : Field) (hpf : panicFree f = true) : loadField exec c f ≠ none := by
  unfold loadField
  split
  · simp
  · split
    · simp
    · rename_i hset htag
      cases hv : f.value with
      | str s =>
        simp only []
        cases hr : Config.GetString exec c (fieldKey f) with
        | ret s2 err => cases err <;> simp
        | panicked => exact absurd hr (GetString_ne_panicked exec hconf c _)
      | int i =>
        simp only []
        cases hr : Config.GetInt64 exec c (fieldKey f) with
        | ret i2 err => cases err <;> simp
        | panicked => exact absurd hr (GetInt64_ne_panicked exec hconf c _)
      | bool b =>
        simp only []
        cases hr : Config.GetBool exec c (fieldKey f) with
        | ret b2 err => cases err <;> simp
        | panicked => exact absurd hr (GetBool_ne_panicked exec hconf c _)
      | strSlice l =>
        simp only []
        rcases hr : Config.GetStrings exec c (fieldKey f) with ⟨ss, err⟩
        cases err <;> simp
      | strArray l =>
        simp only []
        rcases hr : Config.GetStrings exec c (fieldKey f) with ⟨ss, err⟩
        cases err <;> simp
      | otherSlice ty =>
        simp [panicFree, hset, htag, hv] at hpf
      | otherArray ty n =>
        have hn : n = 0 := by simpa [panicFree, hset, htag, hv] using hpf
        simp only []
        rcases hr : Config.GetStrings exec c (fieldKey f) with ⟨ss, err⟩
        cases err <;> simp [hn]
      | unsupported ty => simp

theorem outF_eq (exec : Exec) (c : Config) (f f2 : Field) (eOpt : Option GoError)
    (h : loadField exec c f = some (f2, eOpt)) : outF exec c f = f2 := by
  simp [outF, h]

theorem errF_eq_some (exec : Exec) (c : Config) (f f2 : Field) (e : GoError)
    (h : loadField exec c f = some (f2, some e)) : errF exec c f = some (f.name, e) := by
  simp [errF, h]

theorem errF_eq_none (exec : Exec) (c : Config) (f f2 : Field)
    (h : loadField exec c f = some (f2, none)) : errF exec c f = none := by
  simp [errF, h]

theorem errF_fst (exec : Exec) (c : Config) (f : Field) (p : String × GoError)
    (h : errF exec c f = some p) : p.1 = f.name := by
  unfold errF at h
  split at h
  · simp only [Option.some.injEq] at h
    rw [← h]
  · simp at h

theorem mapInsert_fresh (m : List (String × GoError)) (k : String) (v : GoError)
    (h : ∀ p ∈ m, p.1 ≠ k) : mapInsert m k v = m ++ [(k, v)] := by
  have hx : m.any (fun p => p.1 == k) = false := by
    rw [List.any_eq_false]
    intro p hp
    simpa using h p hp
  simp [mapInsert, hx]

theorem loadFields_eq (exec : Exec) (hconf : Conformant exec) (c : Config) :
    ∀ (fs : List Field) (errs0 : List (String × GoError)),
      (fs.map Field.name).Nodup →
      (∀ f ∈ fs, panicFree f = true) →
      (∀ f ∈ fs, ∀ p ∈ errs0, p.1 ≠ f.name) →
      loadFields exec c fs errs0 =
        some (fs.map (outF exec c), errs0 ++ fs.filterMap (errF exec c))
  | [], errs0, _, _, _ => by simp [loadFields]
  | f :: fs, errs0, hnodup, hpf, hfresh => by
    obtain ⟨fe, hfe⟩ :=
      Option.ne_none_iff_exists'.mp (loadField_ne_none exec hconf c f (hpf f (by simp)))
    rcases fe with ⟨f2, eOpt⟩
    have hnodup' : (fs.map Field.name).Nodup :=
      (List.nodup_cons.mp (by simpa using hnodup)).2
    have hpf' : ∀ g ∈ fs, panicFree g = true := fun g hg => hpf g (by simp [hg])
    have hname : f.name ∉ fs.map Field.name :=
      (List.nodup_cons.mp (by simpa using hnodup)).1
    cases eOpt with
    | none =>
      have hfresh' : ∀ g ∈ fs, ∀ p ∈ errs0, p.1 ≠ g.name :=
        fun g hg => hfresh g (by simp [hg])
      simp only [loadFields, hfe]
      rw [loadFields_eq exec hconf c fs errs0 hnodup' hpf' hfresh']
      rw [List.map_cons, List.filterMap_cons, outF_eq exec c f f2 none hfe,
        errF_eq_none exec c f f2 hfe]
    | some e =>
      have hins : mapInsert errs0 f.name e = errs0 ++ [(f.name, e)] :=
        mapInsert_fresh _ _ _ (fun p hp => hfresh f (by simp) p hp)
      have hfresh' : ∀ g ∈ fs, ∀ p ∈ errs0 ++ [(f.name, e)], p.1 ≠ g.name := by
        intro g hg p hp
        rcases List.mem_append.mp hp with hp0 | hp1
        · exact hfresh g (by simp [hg]) p hp0
        · have hpe : p = (f.name, e) := by simpa using hp1
          subst hpe
          intro hEq
          have hEq2 : f.name = g.name := hEq
          exact hname (hEq2 ▸ List.mem_map_of_mem Field.name hg)
      simp only [loadFields, hfe, hins]
      rw [loadFields_eq exec hconf c fs (errs0 ++ [(f.name, e)]) hnodup' hpf' hfresh']
      rw [List.map_cons, List.filterMap_cons, outF_eq exec c f f2 (some e) hfe,
        errF_eq_some exec c f f2 e hfe]
      simp

theorem Load_eq (exec : Exec) (hconf : Conformant exec) (c : Config) (fs : List Field)
    (hnodup : (fs.map Field.name).Nodup)
    (hpf : ∀ f ∈ fs, panicFree f = true) :
    Config.Load exec c (.ptrToStruct fs) =
      some (.loadErr (LoadError.Any (some (fs.filterMap (errF exec c)))),
        .ptrToStruct (fs.map (outF exec c))) := by
  simp only [Config.Load, loadFields_eq exec hconf c fs [] hnodup hpf (by simp)]
  simp

theorem errF_mem_names (exec : Exec) (c : Config) (fs : List Field) (x : String)
    (hx : x ∈ (fs.filterMap (errF exec c)).map Prod.fst) : x ∈ fs.map Field.name := by
  obtain ⟨p, hp, rfl⟩ := List.mem_map.mp hx
  obtain ⟨f, hf, hpf⟩ := List.mem_filterMap.mp hp
  rw [errF_fst exec c f p hpf]
  exact List.mem_map_of_mem _ hf

theorem count_errF_eq_one (exec : Exec) (c : Config) :
    ∀ (fs : List Field), (fs.map Field.name).Nodup →
      ∀ f ∈ fs, (errF exec c f).isSome →
        ((fs.filterMap (errF exec c)).map Prod.fst).count f.name = 1
  | [], _, f, hf, _ => absurd hf (List.not_mem_nil f)
  | g :: gs, hnodup, f, hf, hsome => by
    have hnodup' : (gs.map Field.name).Nodup :=
      (List.nodup_cons.mp (by simpa using hnodup)).2
    have hgname : g.name ∉ gs.map Field.name :=
      (List.nodup_cons.mp (by simpa using hnodup)).1
    rcases List.mem_cons.mp hf with rfl | hfgs
    · obtain ⟨p, hp⟩ := Option.isSome_iff_exists.mp hsome
      have hp1 : p.1 = f.name := errF_fst exec c f p hp
      have h0 : f.name ∉ (gs.filterMap (errF exec c)).map Prod.fst :=
        fun hmem => hgname (errF_mem_names exec c gs f.name hmem)
      simp only [List.filterMap_cons, hp, List.map_cons, hp1]
      rw [List.count_cons_self, List.count_eq_zero.mpr h0]
    · cases hg : errF exec c g with
      | none =>
        simp only [List.filterMap_cons, hg]
        exact count_errF_eq_one exec c gs hnodup' f hfgs hsome
      | some p =>
        have hp1 : p.1 = g.name := errF_fst exec c g p hg
        have hne : f.name ≠ g.name :=
          fun hEq => hgname (hEq ▸ List.mem_map_of_mem Field.name hfgs)
        simp only [List.filterMap_cons, hg, List.map_cons, hp1]
        rw [List.count_cons_of_ne hne]
        exact count_errF_eq_one exec c gs hnodup' f hfgs hsome

theorem arrayAssign_length (olds ss : List String) :
    (arrayAssign olds ss).length = olds.length := by
  induction olds generalizing ss with
  | nil => simp [arrayAssign]
  | cons o olds ih =>
    cases ss with
    | nil => simp [arrayAssign]
    | cons s ss => simp [arrayAssign, ih]

theorem arrayAssign_getD (olds ss : List String) (i : Nat) (d : String) :
    (arrayAssign olds ss).getD i d =
      if i < olds.length then
        (if i < ss.length then ss.getD i d else olds.getD i d)
      else d := by
  induction olds generalizing ss i with
  | nil => simp [arrayAssign]
  | cons o olds ih =>
    cases ss with
    | nil =>
      simp only [arrayAssign, List.length_nil, Nat.not_lt_zero, if_false]
      split
      · rfl
      · rename_i hi
        rw [List.getD_eq_getElem?_getD, List.getElem?_eq_none (by omega), Option.getD_none]
    | cons s ss =>
      cases i with
      | zero => simp [arrayAssign]
      | succ i =>
        simp only [arrayAssign, List.getD_cons_succ, List.length_cons, ih]
        congr 1 <;> simp [Nat.succ_lt_succ_iff]

theorem loadField_str_success (exec : Exec) (c : Config) (f : Field) (s0 s : String)
    (hset : f.canSet = true) (htag : f.tag ≠ "") (hval : f.value = .str s0)
    (hq : Config.GetString exec c (fieldKey f) = .ret s none) :
    loadField exec c f = some ({ f with value := .str s }, none) := by
  simp [loadField, hset, htag, hval, hq]

theorem loadField_int_success (exec : Exec) (c : Config) (f : Field) (i0 : Int) (i : Int)
    (hset : f.canSet = true) (htag : f.tag ≠ "") (hval : f.value = .int i0)
    (hq : Config.GetInt64 exec c (fieldKey f) = .ret i none) :
    loadField exec c f = some ({ f with value := .int i }, none) := by
  simp [loadField, hset, htag, hval, hq]

theorem loadField_bool_success (exec : Exec) (c : Config) (f : Field) (b0 b : Bool)
    (hset : f.canSet = true) (htag : f.tag ≠ "") (hval : f.value = .bool b0)
    (hq : Config.GetBool exec c (fieldKey f) = .ret b none) :
    loadField exec c f = some ({ f with value := .bool b }, none) := by
  simp [loadField, hset, htag, hval, hq]

theorem loadField_strSlice_success (exec : Exec) (c : Config) (f : Field)
    (l0 ss : List String)
    (hset : f.canSet = true) (htag : f.tag ≠ "") (hval : f.value = .strSlice l0)
    (hq : Config.GetStrings exec c (fieldKey f) = (ss, none)) :
    loadField exec c f = some ({ f with value := .strSlice ss }, none) := by
  simp [loadField, hset, htag, hval, hq]

theorem loadField_strArray_success (exec : Exec) (c : Config) (f : Field)
    (a ss : List String)
    (hset : f.canSet = true) (htag : f.tag ≠ "") (hval : f.value = .strArray a)
    (hq : Config.GetStrings exec c (fieldKey f) = (ss, none)) :
    loadField exec c f = some ({ f with value := .strArray (arrayAssign a ss) }, none) := by
  simp [loadField, hset, htag, hval, hq]

theorem loadField_unsupported (exec : Exec) (c : Config) (f : Field) (ty : String)
    (hset : f.canSet = true) (htag : f.tag ≠ "") (hval : f.value = .unsupported ty) :
    loadField exec c f =
      some (f, some (.errorfMsg
        ("cannot populate field \"" ++ f.name ++ "\" of type " ++ ty))) := by
  simp [loadField, hset, htag, hval]

theorem loadField_otherSlice_panics (exec : Exec) (c : Config) (f : Field) (ty : String)
    (ss : List String)
    (hset : f.canSet = true) (htag : f.tag ≠ "") (hval : f.value = .otherSlice ty)
    (hq : Config.GetStrings exec c (fieldKey f) = (ss, none)) :
    loadField exec c f = none := by
  simp [loadField, hset, htag, hval, hq]

theorem loadField_otherArray_panics (exec : Exec) (c : Config) (f : Field) (ty : String)
    (n : Nat) (ss : List String)
    (hset : f.canSet = true) (htag : f.tag ≠ "") (hval : f.value = .otherArray ty n)
    (hn : n ≠ 0) (hss : ss ≠ [])
    (hq : Config.GetStrings exec c (fieldKey f) = (ss, none)) :
    loadField exec c f = none := by
  simp [loadField, hset, htag, hval, hq, hn, hss]

/-- A conforming adapter on which every key is absent: every invocation
exits with status 1 (the absent-key signal). -/
def execAbsent : Exec := fun _ => .exitError 1 "boom"

theorem execAbsent_conformant : Conformant execAbsent := fun _ => trivial

/-- A conforming adapter that answers every query with one value "v". -/
def execOne : Exec := fun _ => .success (encodeValues ["v"])

theorem execOne_conformant : Conformant execOne :=
  fun _ => ⟨["v"], by simp, by decide, rfl⟩

/-- C1: under a protocol-conforming adapter, for every struct (field names
distinct, as Go guarantees) whose fields are free of the orthogonal
reflect-assignment panic (no non-string slice or non-empty non-string
array field — such a field's panic aborts the process, it does not record
a failure), Load processes each field independently: the final fields are
the pointwise per-field results and the error map is the pointwise
collection of per-field failures, so no field's failure prevents any
later field from being queried and populated; and every field whose
accessor failed or whose kind falls to the default case contributes
exactly one entry under its name to the result mapping. -/
theorem C1_per_field_isolation (exec : Exec) (c : Config) (fs : List Field)
    (hconf : Conformant exec) (hnodup : (fs.map Field.name).Nodup)
    (hpf : ∀ f ∈ fs, panicFree f = true) :
    Config.Load exec c (.ptrToStruct fs) =
      some (.loadErr (LoadError.Any (some (fs.filterMap (errF exec c)))),
        .ptrToStruct (fs.map (outF exec c))) ∧
    ∀ f ∈ fs, (errF exec c f).isSome →
      ((fs.filterMap (errF exec c)).map Prod.fst).count f.name = 1 :=
  ⟨Load_eq exec hconf c fs hnodup hpf, count_errF_eq_one exec c fs hnodup⟩

/-- Witness for C1: a concrete adapter on which both fields fail with an
absent-key error; all hypotheses hold and the conclusion follows. -/
theorem C1_witness :
    Conformant execAbsent ∧
    (([(⟨"A", "a.b", true, .str ""⟩ : Field), ⟨"B", "c.d", true, .bool false⟩].map
      Field.name).Nodup) ∧
    (∀ f ∈ [(⟨"A", "a.b", true, .str ""⟩ : Field), ⟨"B", "c.d", true, .bool false⟩],
      panicFree f = true) ∧
    (Config.Load execAbsent Default
        (.ptrToStruct [⟨"A", "a.b", true, .str ""⟩, ⟨"B", "c.d", true, .bool false⟩]) =
      some (.loadErr (LoadError.Any (some
          ([(⟨"A", "a.b", true, .str ""⟩ : Field), ⟨"B", "c.d", true, .bool false⟩].filterMap
            (errF execAbsent Default)))),
        .ptrToStruct
          ([(⟨"A", "a.b", true, .str ""⟩ : Field), ⟨"B", "c.d", true, .bool false⟩].map
            (outF execAbsent Default))) ∧
      ∀ f ∈ [(⟨"A", "a.b", true, .str ""⟩ : Field), ⟨"B", "c.d", true, .bool false⟩],
        (errF execAbsent Default f).isSome →
          (([(⟨"A", "a.b", true, .str ""⟩ : Field), ⟨"B", "c.d", true, .bool false⟩].filterMap
            (errF execAbsent Default)).map Prod.fst).count f.name = 1) :=
  ⟨execAbsent_conformant, by decide, by decide,
    C1_per_field_isolation execAbsent Default _ execAbsent_conformant (by decide) (by decide)⟩

/-- C2 (refuted at the Load boundary, confirmed for Any itself):
`LoadError.Any` returns the nil map exactly when the mapping has no
entries, but `Load` returns `errs.Any()` through the `error` interface, so
on a load where no field failed the returned value is a non-nil interface
holding a nil `LoadError` — not the nil error value. -/
theorem C2_empty_load_error (m : LoadError) :
    (LoadError.Any m = none ↔ goMapLen m = 0) ∧
    Config.Load execAbsent Default (.ptrToStruct []) =
      some (.loadErr none, .ptrToStruct []) ∧
    (GoErrorInterface.loadErr none ≠ .nilInterface) := by
  refine ⟨?_, by decide, by decide⟩
  cases m with
  | none => simp [LoadError.Any, goMapLen]
  | some l => cases l <;> simp [LoadError.Any, goMapLen]

/-- C3: Load on a non-pointer argument, or on a pointer to a non-struct,
returns the whole-call fmt.Errorf failure immediately, leaves the target
unchanged, and the result does not depend on the adapter at all (no query
is issued before the precondition check fails). -/
theorem C3_precondition_violation (exec exec2 : Exec) (c : Config) (desc : String) :
    Config.Load exec c (.nonPointer desc) =
      some (.errorfMsg ("not a pointer: " ++ desc), .nonPointer desc) ∧
    Config.Load exec c (.ptrToNonStruct desc) =
      some (.errorfMsg ("not a pointer to a struct: " ++ desc), .ptrToNonStruct desc) ∧
    Config.Load exec c (.nonPointer desc) = Config.Load exec2 c (.nonPointer desc) ∧
    Config.Load exec c (.ptrToNonStruct desc) = Config.Load exec2 c (.ptrToNonStruct desc) :=
  ⟨rfl, rfl, rfl, rfl⟩

/-- C4 counterexample: a tagged settable `[]int` field — a kind that is
not among the five supported kinds — under a conforming adapter that
answers its key: the `reflect.Slice` dispatch case runs, the query
succeeds, and `fv.Set(ssr)` panics, aborting the whole `Load` call
(result `none`): no per-field entry is recorded and the subsequent string
field — which processed alone would have been populated — is never
reached, refuting "records a per-field error entry ... never escalates
... and populates all other fields normally". -/
theorem C4_counterexample :
    Conformant execOne ∧
    Config.Load execOne Default
      (.ptrToStruct [⟨"Ints", "a.b", true, .otherSlice "int"⟩,
        ⟨"S", "c.d", true, .str ""⟩]) = none ∧
    loadField execOne Default (⟨"S", "c.d", true, .str ""⟩ : Field) =
      some (⟨"S", "c.d", true, .str "v"⟩, none) :=
  ⟨execOne_conformant, by decide, by decide⟩

/-- C4 amended: a settable field tagged with a lookup key whose kind falls
to the dispatch's default case (not string, signed integer, boolean,
slice, or array) gets a per-field errorf entry under its name, is itself
left unchanged, the whole call still returns the per-field mapping (never
the whole-call errorf failure), and all other panic-free fields are
processed normally (pointwise); whereas a slice or array field of
non-string element type whose key is successfully queried makes the load
panic instead (for arrays, only when both the array and the result are
non-empty). -/
theorem C4_unsupported_default_kind (exec : Exec) (c : Config) (fs : List Field)
    (f : Field) (ty : String) (hconf : Conformant exec)
    (hnodup : (fs.map Field.name).Nodup)
    (hpf : ∀ g ∈ fs, panicFree g = true)
    (hmem : f ∈ fs) (hval : f.value = .unsupported ty) (hset : f.canSet = true)
    (htag : f.tag ≠ "") :
    loadField exec c f =
      some (f, some (.errorfMsg
        ("cannot populate field \"" ++ f.name ++ "\" of type " ++ ty))) ∧
    Config.Load exec c (.ptrToStruct fs) =
      some (.loadErr (LoadError.Any (some (fs.filterMap (errF exec c)))),
        .ptrToStruct (fs.map (outF exec c))) ∧
    (f.name, GoError.errorfMsg
        ("cannot populate field \"" ++ f.name ++ "\" of type " ++ ty))
      ∈ fs.filterMap (errF exec c) ∧
    outF exec c f = f ∧
    (∀ (g : Field) (ty2 : String) (ss : List String),
      g.canSet = true → g.tag ≠ "" → g.value = .otherSlice ty2 →
      Config.GetStrings exec c (fieldKey g) = (ss, none) →
      loadField exec c g = none) ∧
    (∀ (g : Field) (ty2 : String) (n : Nat) (ss : List String),
      g.canSet = true → g.tag ≠ "" → g.value = .otherArray ty2 n →
      n ≠ 0 → ss ≠ [] →
      Config.GetStrings exec c (fieldKey g) = (ss, none) →
      loadField exec c g = none) := by
  have hlf := loadField_unsupported exec c f ty hset htag hval
  refine ⟨hlf, Load_eq exec hconf c fs hnodup hpf, ?_, outF_eq _ _ _ _ _ hlf,
    ?_, ?_⟩
  · exact List.mem_filterMap.mpr ⟨f, hmem, errF_eq_some _ _ _ _ _ hlf⟩
  · intro g ty2 ss hgset hgtag hgval hgq
    exact loadField_otherSlice_panics exec c g ty2 ss hgset hgtag hgval hgq
  · intro g ty2 n ss hgset hgtag hgval hn hss hgq
    exact loadField_otherArray_panics exec c g ty2 n ss hgset hgtag hgval hn hss hgq

/-- Witness for C4 amended: a struct with one default-case field and one
string field, under an adapter that answers every query. -/
theorem C4_witness :
    Conformant execOne ∧
    (([(⟨"U", "x.y", true, .unsupported "struct"⟩ : Field),
       ⟨"S", "a.b", true, .str ""⟩].map Field.name).Nodup) ∧
    (∀ g ∈ [(⟨"U", "x.y", true, .unsupported "struct"⟩ : Field),
       ⟨"S", "a.b", true, .str ""⟩], panicFree g = true) ∧
    (⟨"U", "x.y", true, .unsupported "struct"⟩ : Field) ∈
      [(⟨"U", "x.y", true, .unsupported "struct"⟩ : Field), ⟨"S", "a.b", true, .str ""⟩] ∧
    (loadField execOne Default (⟨"U", "x.y", true, .unsupported "struct"⟩ : Field) =
      some (⟨"U", "x.y", true, .unsupported "struct"⟩,
        some (.errorfMsg "cannot populate field \"U\" of type struct")) ∧
     Config.Load execOne Default
        (.ptrToStruct [(⟨"U", "x.y", true, .unsupported "struct"⟩ : Field),
          ⟨"S", "a.b", true, .str ""⟩]) =
      some (.loadErr (LoadError.Any (some
          ([(⟨"U", "x.y", true, .unsupported "struct"⟩ : Field),
            ⟨"S", "a.b", true, .str ""⟩].filterMap (errF execOne Default)))),
        .ptrToStruct
          ([(⟨"U", "x.y", true, .unsupported "struct"⟩ : Field),
            ⟨"S", "a.b", true, .str ""⟩].map (outF execOne Default))) ∧
     ("U", GoError.errorfMsg "cannot populate field \"U\" of type struct") ∈
       [(⟨"U", "x.y", true, .unsupported "struct"⟩ : Field),
         ⟨"S", "a.b", true, .str ""⟩].filterMap (errF execOne Default) ∧
     outF execOne Default (⟨"U", "x.y", true, .unsupported "struct"⟩ : Field) =
       ⟨"U", "x.y", true, .unsupported "struct"⟩ ∧
     (∀ (g : Field) (ty2 : String) (ss : List String),
       g.canSet = true → g.tag ≠ "" → g.value = .otherSlice ty2 →
       Config.GetStrings execOne Default (fieldKey g) = (ss, none) →
       loadField execOne Default g = none) ∧
     (∀ (g : Field) (ty2 : String) (n : Nat) (ss : List String),
       g.canSet = true → g.tag ≠ "" → g.value = .otherArray ty2 n →
       n ≠ 0 → ss ≠ [] →
       Config.GetStrings execOne Default (fieldKey g) = (ss, none) →
       loadField execOne Default g = none)) :=
  ⟨execOne_conformant, by decide, by decide, by decide,
    C4_unsupported_default_kind execOne Default _ _ "struct" execOne_conformant
      (by decide) (by decide) (by decide) rfl rfl (by decide)⟩

/-- C5: when the adapter answers the plain (no type hint) query for a key
with the stored value list vs, GetStrings returns exactly vs — declaration
order, duplicates intact — and GetString returns the last element of that
same sequence. -/
theorem C5_getstrings_order (exec : Exec) (c : Config) (key : String)
    (vs : List String) (hne : vs ≠ []) (hfree : ∀ v ∈ vs, '\x00' ∉ v.data)
    (hexec : exec (queryArgs c [] key) = .success (encodeValues vs)) :
    Config.GetStrings exec c key = (vs, none) ∧
    Config.GetString exec c key = .ret (vs.getLast hne) none :=
  ⟨GetStrings_success exec c key vs hfree hexec,
   GetString_success exec c key vs hne hfree hexec⟩

/-- Witness for C5: a key stored with the duplicate-containing sequence
["a", "b", "a"]; GetStrings preserves order and duplicates, GetString
returns the last element "a". -/
theorem C5_witness :
    (["a", "b", "a"] : List String) ≠ [] ∧
    (∀ v ∈ (["a", "b", "a"] : List String), '\x00' ∉ v.data) ∧
    (fun args => if args = queryArgs Default [] "k" then
        ExecResult.success (encodeValues ["a", "b", "a"])
      else .exitError 1 "" : Exec) (queryArgs Default [] "k") =
      .success (encodeValues ["a", "b", "a"]) ∧
    Config.GetStrings (fun args => if args = queryArgs Default [] "k" then
        ExecResult.success (encodeValues ["a", "b", "a"])
      else .exitError 1 "" : Exec) Default "k" = (["a", "b", "a"], none) ∧
    Config.GetString (fun args => if args = queryArgs Default [] "k" then
        ExecResult.success (encodeValues ["a", "b", "a"])
      else .exitError 1 "" : Exec) Default "k" = .ret "a" none := by
  have h := C5_getstrings_order (fun args => if args = queryArgs Default [] "k" then
      ExecResult.success (encodeValues ["a", "b", "a"])
    else .exitError 1 "" : Exec) Default "k" ["a", "b", "a"]
    (by decide) (by decide) (by decide)
  exact ⟨by decide, by decide, by decide, h.1, h.2.trans (by decide)⟩

/-- C6: under the adapter contract (a successful query's output is the
NUL-terminated encoding of at least one value; a key with zero entries
exits with status 1 instead), every successful query yields a non-empty
value list, so none of the element-indexing typed accessors can panic. -/
theorem C6_no_panic (exec : Exec) (hconf : Conformant exec) :
    (∀ c key extra, (Config.get exec c key extra).2 = none →
      (Config.get exec c key extra).1 ≠ []) ∧
    (∀ c key, Config.GetString exec c key ≠ .panicked) ∧
    (∀ c key, Config.GetPath exec c key ≠ .panicked) ∧
    (∀ c key, Config.GetBool exec c key ≠ .panicked) ∧
    (∀ c key, Config.GetInt64 exec c key ≠ .panicked) :=
  ⟨fun c key extra => get_success_ne_nil exec hconf c key extra,
   fun c key => GetString_ne_panicked exec hconf c key,
   fun c key => GetPath_ne_panicked exec hconf c key,
   fun c key => GetBool_ne_panicked exec hconf c key,
   fun c key => GetInt64_ne_panicked exec hconf c key⟩

/-- Witness for C6 at two concrete conforming adapters (one all-absent,
one all-success). -/
theorem C6_witness :
    Conformant execOne ∧ Conformant execAbsent ∧
    Config.GetString execOne Default "user.email" ≠ .panicked ∧
    Config.GetInt64 execAbsent Default "gc.auto" ≠ .panicked :=
  ⟨execOne_conformant, execAbsent_conformant,
   (C6_no_panic execOne execOne_conformant).2.1 Default "user.email",
   (C6_no_panic execAbsent execAbsent_conformant).2.2.2.2 Default "gc.auto"⟩

/-- C7: IsInvalidKeyError holds exactly on a RunError whose process exit
status is 1; it is false on spawn failures, on RunError with any other
status, on ParseInt number errors (as produced by GetInt64), and on
generic errorf errors. -/
theorem C7_invalid_key_predicate :
    (∀ e : GoError, IsInvalidKeyError e = true ↔ ∃ msg, e = .runError msg 1) ∧
    IsInvalidKeyError .startErr = false ∧
    (∀ s b, IsInvalidKeyError (.numError s b) = false) ∧
    (∀ m, IsInvalidKeyError (.errorfMsg m) = false) ∧
    (∀ msg status, status ≠ 1 → IsInvalidKeyError (.runError msg status) = false) := by
  refine ⟨?_, rfl, fun s b => rfl, fun m => rfl, ?_⟩
  · intro e
    cases e with
    | runError msg status => simp [IsInvalidKeyError]
    | startErr => simp [IsInvalidKeyError]
    | numError s b => simp [IsInvalidKeyError]
    | errorfMsg m => simp [IsInvalidKeyError]
  · intro msg status h
    simpa [IsInvalidKeyError] using h

/-- Witness for C7: concrete error values on both sides of the predicate. -/
theorem C7_witness :
    IsInvalidKeyError (.runError "exit status 1" 1) = true ∧
    ((2 : Int) ≠ 1 ∧ IsInvalidKeyError (.runError "fatal" 2) = false) ∧
    IsInvalidKeyError (.numError "12x" false) = false ∧
    IsInvalidKeyError .startErr = false :=
  ⟨(C7_invalid_key_predicate.1 _).mpr ⟨"exit status 1", rfl⟩,
   ⟨by decide, C7_invalid_key_predicate.2.2.2.2 "fatal" 2 (by decide)⟩,
   C7_invalid_key_predicate.2.2.1 "12x" false,
   C7_invalid_key_predicate.2.1⟩

/-- C8: the frame property of Load. Non-settable fields and untagged
fields are returned unchanged with no error and are never queried (their
processing does not depend on the adapter); a field whose accessor failed
is returned unchanged; and under a conforming adapter, for a struct free
of reflect-assignment panics, the final struct is exactly the pointwise
per-field result, so only fields whose accessor succeeded are modified. -/
theorem C8_frame (exec exec2 : Exec) (c : Config) (fs : List Field)
    (hconf : Conformant exec) (hnodup : (fs.map Field.name).Nodup)
    (hpf : ∀ f ∈ fs, panicFree f = true) :
    (∀ f : Field, f.canSet = false →
      loadField exec c f = some (f, none) ∧ loadField exec c f = loadField exec2 c f) ∧
    (∀ f : Field, f.tag = "" →
      loadField exec c f = some (f, none) ∧ loadField exec c f = loadField exec2 c f) ∧
    (∀ (f f2 : Field) (e : GoError), loadField exec c f = some (f2, some e) → f2 = f) ∧
    Config.Load exec c (.ptrToStruct fs) =
      some (.loadErr (LoadError.Any (some (fs.filterMap (errF exec c)))),
        .ptrToStruct (fs.map (outF exec c))) ∧
    (∀ f ∈ fs,
      (f.canSet = false ∨ f.tag = "" ∨ (∃ e, errF exec c f = some (f.name, e))) →
      outF exec c f = f) := by
  refine ⟨?_, ?_, loadField_err_frame exec c, Load_eq exec hconf c fs hnodup hpf, ?_⟩
  · intro f hf
    exact ⟨loadField_not_settable exec c f hf,
      (loadField_not_settable exec c f hf).trans
        (loadField_not_settable exec2 c f hf).symm⟩
  · intro f hf
    exact ⟨loadField_untagged exec c f hf,
      (loadField_untagged exec c f hf).trans (loadField_untagged exec2 c f hf).symm⟩
  · intro f _ hcase
    rcases hcase with hset | htag | ⟨e, herr⟩
    · exact outF_eq _ _ _ _ _ (loadField_not_settable exec c f hset)
    · exact outF_eq _ _ _ _ _ (loadField_untagged exec c f htag)
    · unfold errF at herr
      split at herr
      · rename_i heq
        rw [outF_eq _ _ _ _ _ heq, loadField_err_frame _ _ _ _ _ heq]
      · simp at herr

/-- Witness for C8: a non-settable field keeps its value under any
adapter, and a field whose accessor failed keeps its prior value. -/
theorem C8_witness :
    Conformant execAbsent ∧
    (([(⟨"F", "a.b", true, .str "old"⟩ : Field)].map Field.name).Nodup) ∧
    (∀ f ∈ [(⟨"F", "a.b", true, .str "old"⟩ : Field)], panicFree f = true) ∧
    loadField execAbsent Default (⟨"N", "a.b", false, .str "keep"⟩ : Field) =
      some (⟨"N", "a.b", false, .str "keep"⟩, none) ∧
    outF execAbsent Default (⟨"F", "a.b", true, .str "old"⟩ : Field) =
      ⟨"F", "a.b", true, .str "old"⟩ := by
  have h := C8_frame execAbsent execOne Default [⟨"F", "a.b", true, .str "old"⟩]
    execAbsent_conformant (by decide) (by decide)
  refine ⟨execAbsent_conformant, by decide, by decide, (h.1 _ rfl).1, ?_⟩
  exact h.2.2.2.2 _ (by decide)
    (Or.inr (Or.inr ⟨.runError "boom" 1, by decide⟩))

/-- C9: for a fixed-size string-array field (zero-valued, as in a freshly
allocated struct) whose query succeeds with values vs, the loader assigns
positionally up to min(array length, result length): the array keeps its
length (extra result elements are dropped), slots beyond the result keep
their zero value "", no failure is recorded, and a Load of the
one-field struct returns it so with an empty error mapping. -/
theorem C9_array_positional (exec : Exec) (c : Config) (f : Field) (n : Nat)
    (vs : List String)
    (hset : f.canSet = true) (htag : f.tag ≠ "")
    (hval : f.value = .strArray (List.replicate n ""))
    (hq : Config.GetStrings exec c (fieldKey f) = (vs, none)) :
    loadField exec c f =
      some ({ f with value := .strArray (arrayAssign (List.replicate n "") vs) }, none) ∧
    (arrayAssign (List.replicate n "") vs).length = n ∧
    (∀ i d, i < n →
      (arrayAssign (List.replicate n "") vs).getD i d =
        if i < vs.length then vs.getD i d else "") ∧
    errF exec c f = none ∧
    Config.Load exec c (.ptrToStruct [f]) =
      some (.loadErr none,
        .ptrToStruct [{ f with value := .strArray (arrayAssign (List.replicate n "") vs) }]) := by
  have hlf := loadField_strArray_success exec c f (List.replicate n "") vs hset htag hval hq
  refine ⟨hlf, by simp [arrayAssign_length], ?_, errF_eq_none _ _ _ _ hlf, ?_⟩
  · intro i d hi
    rw [arrayAssign_getD]
    rw [if_pos (by simp [hi])]
    split
    · rfl
    · simp [List.getElem?_replicate, hi]
  · simp [Config.Load, loadFields, hlf, LoadError.Any, goMapLen]

/-- Witness for C9: a three-slot zero-valued array receiving two values;
slots 0 and 1 are assigned, slot 2 keeps "", the length stays 3, and no
error is recorded. -/
theorem C9_witness :
    ((⟨"Arr", "g.r", true, .strArray (List.replicate 3 "")⟩ : Field).canSet = true) ∧
    Config.GetStrings (fun _ => .success (encodeValues ["a", "b"]) : Exec) Default
      (fieldKey (⟨"Arr", "g.r", true, .strArray (List.replicate 3 "")⟩ : Field)) =
      (["a", "b"], none) ∧
    loadField (fun _ => .success (encodeValues ["a", "b"]) : Exec) Default
      (⟨"Arr", "g.r", true, .strArray (List.replicate 3 "")⟩ : Field) =
      some (⟨"Arr", "g.r", true, .strArray ["a", "b", ""]⟩, none) ∧
    (arrayAssign (List.replicate 3 "") ["a", "b"]).length = 3 ∧
    arrayAssign (List.replicate 3 "") ["a", "b"] = ["a", "b", ""] := by
  have h := C9_array_positional (fun _ => .success (encodeValues ["a", "b"]) : Exec)
    Default ⟨"Arr", "g.r", true, .strArray (List.replicate 3 "")⟩ 3 ["a", "b"]
    rfl (by decide) rfl (by decide)
  exact ⟨rfl, by decide, h.1.trans (by decide), h.2.1, by decide⟩

/-- C10 counterexample: under a conforming adapter whose stored value is
the out-of-range literal "9223372036854775808", GetInt64 fails with the
ParseInt range error yet returns the clamped maximum 2^63-1, not the zero
value 0 — refuting the claim that every typed accessor returns its zero
value on every failure outcome. -/
theorem C10_counterexample :
    Config.GetInt64 (fun _ => .success (encodeValues ["9223372036854775808"]) : Exec)
        Default "gc.auto" =
      .ret 9223372036854775807 (some (.numError "9223372036854775808" true)) ∧
    (9223372036854775807 : Int) ≠ 0 := by
  constructor
  · decide
  · decide

/-- C10 amended: on every failure GetString and GetPath return "", GetBool
returns false, GetStrings and GetPaths return the empty list, and GetInt64
returns 0 — except that a range-overflow ParseInt failure returns the
clamped extreme value (2^63-1 or -(2^63)) together with the range error. -/
theorem C10_amended_zero_values (exec : Exec) (c : Config) (key : String) :
    (∀ s e, Config.GetString exec c key = .ret s (some e) → s = "") ∧
    (∀ s e, Config.GetPath exec c key = .ret s (some e) → s = "") ∧
    (∀ b e, Config.GetBool exec c key = .ret b (some e) → b = false) ∧
    (∀ l e, Config.GetStrings exec c key = (l, some e) → l = []) ∧
    (∀ l e, Config.GetPaths exec c key = (l, some e) → l = []) ∧
    (∀ i e, Config.GetInt64 exec c key = .ret i (some e) →
      i = 0 ∨ ((i = 2 ^ 63 - 1 ∨ i = -(2 ^ 63)) ∧ ∃ s, e = .numError s true)) :=
  ⟨fun s e h => GetString_zero_on_err exec c key s e h,
   fun s e h => GetPath_zero_on_err exec c key s e h,
   fun b e h => GetBool_zero_on_err exec c key b e h,
   fun l e h => get_err_nil exec c key [] l e h,
   fun l e h => get_err_nil exec c key ["--path"] l e h,
   fun i e h => GetInt64_zero_or_clamped_on_err exec c key i e h⟩

/-- Witness for C10 amended: on the all-absent adapter GetString returns
the zero string and GetInt64 the zero integer together with the error. -/
theorem C10_amended_witness :
    Config.GetString execAbsent Default "k" = .ret "" (some (.runError "boom" 1)) ∧
    ("" : String) = "" ∧
    ((0 : Int) = 0 ∨ (((0 : Int) = 2 ^ 63 - 1 ∨ (0 : Int) = -(2 ^ 63)) ∧
      ∃ s, GoError.runError "boom" 1 = .numError s true)) :=
  ⟨by decide,
   (C10_amended_zero_values execAbsent Default "k").1 "" (.runError "boom" 1) (by decide),
   (C10_amended_zero_values execAbsent Default "k").2.2.2.2.2 0 (.runError "boom" 1)
     (by decide)⟩

end GitConfig
